import Mathlib

/-!
Shallow embedding of the silicium-x86_64 hardware-abstraction core.

Machine integers (`u64`, `u16`, `usize`) are modelled as `Nat` together with
explicit bounds and `% 2^w` wraparound where the source can overflow.  A Rust
function that can panic (assertion failure, checked arithmetic `expect`,
out-of-bounds indexing) is modelled as an `Option`-returning function where
`none` is the panic/abort.  A Rust `Result<T, E>` whose error the caller can
observe is also modelled as `Option T` (`none` is the `Err` case); the payload
of the error values (`InvalidVirtual`, `InvalidPhysical`) carries no extra
information needed by the claims.

Overflow of plain `u64` arithmetic (`+`, `-`, `+=`, `-=`) is modelled with the
debug-profile semantics of rustc, which the crate's own documentation assumes:
the operation aborts (here: `none`) instead of wrapping.
-/

/-- Bitwise complement of a value inside a 64-bit word: the Rust expression
`!x` on a `u64`. -/
def compl64 (x : Nat) : Nat := 0xFFFFFFFFFFFFFFFF ^^^ x

/-- The bitfield crate's `set_bit_range(msb, lsb, x)` on a machine word:
overwrite bits `lsb ..= msb` of `v` with the low `msb - lsb + 1` bits of `x`,
leaving every other bit of `v` unchanged. -/
def setBitRange (v msb lsb x : Nat) : Nat :=
  (v &&& compl64 ((2 ^ (msb - lsb + 1) - 1) <<< lsb)) |||
    ((x % 2 ^ (msb - lsb + 1)) <<< lsb)

/-- The bitfield crate's `set_bit(i, b)` on a machine word. -/
def setBit (v i : Nat) (b : Bool) : Nat :=
  if b then v ||| (1 <<< i) else v &&& compl64 (1 <<< i)

/-- Rust `u64::is_power_of_two` (`count_ones() == 1`): nonzero and no bit in
common with its predecessor. -/
def Nat.is_power_of_two (n : Nat) : Bool := n != 0 && n &&& (n - 1) == 0

/-- src/address.rs: `pub struct Virtual(u64)` — a (purportedly canonical)
64-bit virtual address.  The canonicality invariant is tracked by the
`Virtual.is_canonical` predicate, exactly as in the source, where it is
maintained by the constructors rather than by the representation. -/
structure Virtual where
  val : Nat
deriving DecidableEq

/-- src/address.rs: `pub struct Physical(u64)`. -/
structure Physical where
  val : Nat
deriving DecidableEq

namespace Virtual

/-- `Virtual::is_canonical`: `matches!((address & 0xFFFF_8000_0000_0000) >> 47,
0 | 0x1FFFF)`. -/
def is_canonical (address : Nat) : Bool :=
  (address &&& 0xFFFF800000000000) >>> 47 == 0 ||
    (address &&& 0xFFFF800000000000) >>> 47 == 0x1FFFF

/-- `Virtual::new_truncate`: `((addr << 16) as i64 >> 16) as u64`, the
arithmetic right shift that sign-extends bit 47 over bits 48-63.  Written
out in two's-complement arithmetic: keep the low 48 bits and, if bit 47 is
set, add `2^64 - 2^48 = 0xFFFF_0000_0000_0000`. -/
def new_truncate (addr : Nat) : Virtual :=
  if addr.testBit 47 then ⟨addr % 2 ^ 48 + 0xFFFF000000000000⟩
  else ⟨addr % 2 ^ 48⟩

/-- `Virtual::try_new`.  `none` is the `Err(InvalidVirtual _)` branch. -/
def try_new (address : Nat) : Option Virtual :=
  if (address &&& 0xFFFF800000000000) >>> 47 = 0 ∨
      (address &&& 0xFFFF800000000000) >>> 47 = 0x1FFFF then
    some ⟨address⟩
  else if (address &&& 0xFFFF800000000000) >>> 47 = 1 then
    some (new_truncate address)
  else
    none

/-- `Virtual::new`: same as `try_new` but panics (`none`) on the error case. -/
def new (address : Nat) : Option Virtual := try_new address

/-- `Virtual::align_up`: assert power of two, `checked_add(align - 1)`
(panic on 64-bit overflow), mask, then `new_truncate`. -/
def align_up (v : Virtual) (alignment : Nat) : Option Virtual :=
  if alignment.is_power_of_two then
    if v.val + (alignment - 1) < 2 ^ 64 then
      some (new_truncate ((v.val + (alignment - 1)) &&& compl64 (alignment - 1)))
    else none
  else none

/-- `Virtual::align_down`: assert power of two, mask, `new_truncate`. -/
def align_down (v : Virtual) (alignment : Nat) : Option Virtual :=
  if alignment.is_power_of_two then
    some (new_truncate (v.val &&& compl64 (alignment - 1)))
  else none

/-- `Virtual::is_aligned`. -/
def is_aligned (v : Virtual) (alignment : Nat) : Option Bool :=
  if alignment.is_power_of_two then some (v.val &&& (alignment - 1) == 0)
  else none

/-- `Virtual::page_align_down`: `Self::new_truncate(self.0 & 0xFFF)` —
note the mask used by the source is `0xFFF`, not `!0xFFF`. -/
def page_align_down (v : Virtual) : Virtual := new_truncate (v.val &&& 0xFFF)

/-- `Virtual::page_align_up`: `checked_add(0xFFF)` then mask with `!0xFFF`. -/
def page_align_up (v : Virtual) : Option Virtual :=
  if v.val + 0xFFF < 2 ^ 64 then
    some (new_truncate ((v.val + 0xFFF) &&& compl64 0xFFF))
  else none

/-- `Virtual::is_page_aligned`: `trailing_zeros() >= 12`, i.e. the low 12
bits are zero. -/
def is_page_aligned (v : Virtual) : Bool := v.val % 2 ^ 12 == 0

/-- `impl Add<Virtual> for Virtual`: `Self::new(self.0 + rhs.0)`. -/
def add (a b : Virtual) : Option Virtual :=
  if a.val + b.val < 2 ^ 64 then new (a.val + b.val) else none

/-- `impl Add<u64> for Virtual`: `Self::new(self.0 + rhs)`. -/
def add_u64 (a : Virtual) (rhs : Nat) : Option Virtual :=
  if a.val + rhs < 2 ^ 64 then new (a.val + rhs) else none

/-- `impl Add<usize> for Virtual` — on x86_64, `usize` is `u64`. -/
def add_usize (a : Virtual) (rhs : Nat) : Option Virtual := add_u64 a rhs

/-- `impl Sub<Virtual> for Virtual`: `Self::new(self.0 - rhs.0)`. -/
def sub (a b : Virtual) : Option Virtual :=
  if b.val ≤ a.val then new (a.val - b.val) else none

/-- `impl Sub<u64> for Virtual`. -/
def sub_u64 (a : Virtual) (rhs : Nat) : Option Virtual :=
  if rhs ≤ a.val then new (a.val - rhs) else none

/-- `impl Sub<usize> for Virtual`. -/
def sub_usize (a : Virtual) (rhs : Nat) : Option Virtual := sub_u64 a rhs

/-- `impl AddAssign<Virtual> for Virtual`: `self.0 += rhs.0` — the raw field
is incremented with NO canonicality re-validation. -/
def add_assign (a b : Virtual) : Option Virtual :=
  if a.val + b.val < 2 ^ 64 then some ⟨a.val + b.val⟩ else none

/-- `impl AddAssign<u64> for Virtual`: `self.0 += rhs`. -/
def add_assign_u64 (a : Virtual) (rhs : Nat) : Option Virtual :=
  if a.val + rhs < 2 ^ 64 then some ⟨a.val + rhs⟩ else none

/-- `impl SubAssign<u64> for Virtual`: `self.0 -= rhs`. -/
def sub_assign_u64 (a : Virtual) (rhs : Nat) : Option Virtual :=
  if rhs ≤ a.val then some ⟨a.val - rhs⟩ else none

end Virtual

namespace Physical

/-- `Physical::try_new`: error iff the value exceeds 52 bits. -/
def try_new (address : Nat) : Option Physical :=
  if address > 0x000FFFFFFFFFFFFF then none else some ⟨address⟩

/-- `Physical::new`: panics (`none`) where `try_new` errs. -/
def new (address : Nat) : Option Physical := try_new address

/-- `Physical::new_truncate`: keep the low 52 bits. -/
def new_truncate (addr : Nat) : Physical := ⟨addr &&& 0x000FFFFFFFFFFFFF⟩

/-- `Physical::align_up`. -/
def align_up (p : Physical) (alignment : Nat) : Option Physical :=
  if alignment.is_power_of_two then
    if p.val + (alignment - 1) < 2 ^ 64 then
      some (new_truncate ((p.val + (alignment - 1)) &&& compl64 (alignment - 1)))
    else none
  else none

/-- `Physical::align_down`. -/
def align_down (p : Physical) (alignment : Nat) : Option Physical :=
  if alignment.is_power_of_two then
    some (new_truncate (p.val &&& compl64 (alignment - 1)))
  else none

/-- `Physical::is_aligned`. -/
def is_aligned (p : Physical) (alignment : Nat) : Option Bool :=
  if alignment.is_power_of_two then some (p.val &&& (alignment - 1) == 0)
  else none

/-- `Physical::page_align_down`: `Self::new_truncate(self.0 & 0xFFF)` —
the source masks with `0xFFF`, not `!0xFFF`. -/
def page_align_down (p : Physical) : Physical := new_truncate (p.val &&& 0xFFF)

/-- `Physical::page_align_up`. -/
def page_align_up (p : Physical) : Option Physical :=
  if p.val + 0xFFF < 2 ^ 64 then
    some (new_truncate ((p.val + 0xFFF) &&& compl64 0xFFF))
  else none

/-- `Physical::is_page_aligned`: `trailing_zeros() >= 12`. -/
def is_page_aligned (p : Physical) : Bool := p.val % 2 ^ 12 == 0

/-- `Physical::frame_index`: `self.0 >> 12`. -/
def frame_index (p : Physical) : Nat := p.val >>> 12

/-- `impl Add<Physical> for Physical`. -/
def add (a b : Physical) : Option Physical :=
  if a.val + b.val < 2 ^ 64 then new (a.val + b.val) else none

/-- `impl Add<u64> for Physical`. -/
def add_u64 (a : Physical) (rhs : Nat) : Option Physical :=
  if a.val + rhs < 2 ^ 64 then new (a.val + rhs) else none

/-- `impl Sub<Physical> for Physical`. -/
def sub (a b : Physical) : Option Physical :=
  if b.val ≤ a.val then new (a.val - b.val) else none

/-- `impl Sub<u64> for Physical`. -/
def sub_u64 (a : Physical) (rhs : Nat) : Option Physical :=
  if rhs ≤ a.val then new (a.val - rhs) else none

/-- `impl AddAssign<u64> for Physical`: `self.0 += rhs`, no range
re-validation. -/
def add_assign_u64 (a : Physical) (rhs : Nat) : Option Physical :=
  if a.val + rhs < 2 ^ 64 then some ⟨a.val + rhs⟩ else none

/-- `impl SubAssign<u64> for Physical`: `self.0 -= rhs`. -/
def sub_assign_u64 (a : Physical) (rhs : Nat) : Option Physical :=
  if rhs ≤ a.val then some ⟨a.val - rhs⟩ else none

end Physical

namespace Gdt

/-- src/gdt.rs: `struct Entry(u64)`; `Entry::NULL = Entry(0)`.  An entry is
its raw `u64` value. -/
def Entry.NULL : Nat := 0

/-- src/gdt.rs: `pub enum Descriptor { System(u64, u64), Segment(u64) }`. -/
inductive Descriptor where
  | System : Nat → Nat → Descriptor
  | Segment : Nat → Descriptor
deriving DecidableEq

/-- `Descriptor::NULL = Segment(0)`. -/
def Descriptor.NULL : Descriptor := .Segment 0

/-- `Descriptor::KERNEL_CODE64`. -/
def Descriptor.KERNEL_CODE64 : Descriptor := .Segment 0x00af9b000000ffff

/-- `DescriptorFlags::PRESENT = 1 << 47`. -/
def PRESENT : Nat := 1 <<< 47

/-- `Descriptor::tss(tss)` for a `TaskStateSegment` located at address `ptr`
(`size_of::<TaskStateSegment>() = 104`): start from the PRESENT flag, insert
the limit 103 at bits 15-0, the base bits at 39-16 and 63-56, the type
`0b1001` at bits 43-40, and put `(ptr >> 32) & 0xFFFF_FFFF` in the second
(upper) entry. -/
def Descriptor.tss (ptr : Nat) : Descriptor :=
  let low := setBitRange (setBitRange (setBitRange (setBitRange PRESENT
    15 0 (104 - 1)) 39 16 (ptr &&& 0xFFFFFF)) 63 56 ((ptr >>> 24) &&& 0xFF))
    43 40 0b1001
  .System low ((ptr >>> 32) &&& 0xFFFFFFFF)

/-- `Table::<N>::new()` with capacity `n`: all entries NULL.  The table is
just its descriptor array (the register is irrelevant to the claims). -/
def Table.new (n : Nat) : List Nat := List.replicate n 0

/-- `Table::set_descriptor(index, descriptor)`, executed statement by
statement in source order.  Returns the descriptor array as it stands when
the call finishes or panics, together with a flag that is `true` iff the
call panicked (failed assertion, or out-of-bounds indexing for the second
slot of a `System` descriptor). -/
def Table.set_descriptor_run (t : List Nat) (index : Nat)
    (d : Descriptor) : List Nat × Bool :=
  if index < t.length then
    match d with
    | .Segment x =>
      if t.getD index 0 = Entry.NULL then (t.set index x, false)
      else (t, true)
    | .System x y =>
      if index + 1 < t.length then
        if t.getD (index + 1) 0 = Entry.NULL then
          if t.getD index 0 = Entry.NULL then
            (((t.set (index + 1) y).set index x), false)
          else (t, true)
        else (t, true)
      else (t, true)
  else (t, true)

/-- `Table::set_descriptor` as a partial function: `none` on panic. -/
def Table.set_descriptor (t : List Nat) (index : Nat)
    (d : Descriptor) : Option (List Nat) :=
  match Table.set_descriptor_run t index d with
  | (_, true) => none
  | (u, false) => some u

end Gdt

namespace Paging

/-- `PageEntry::ADDR_MASK`. -/
def ADDR_MASK : Nat := 0x000FFFFFFFFFF000

/-- The union of all flag bits declared in `bitflags! { pub struct
PageEntryFlags ... }`: bits 0-11 and bits 52-63.  A value of type
`PageEntryFlags` holds only these bits (`from_bits_truncate` masks with
it). -/
def FLAGS_MASK : Nat := 0xFFF0000000000FFF

/-- `PageEntryFlags::PRESENT = 1 << 0`. -/
def PRESENT : Nat := 1

/-- bitflags `contains`: every bit of `flag` is set in `bits`. -/
def flagsContains (bits flag : Nat) : Bool := bits &&& flag == flag

/-- `PageEntry::new(addr, flags)`: assert the address is page aligned
(panic = `none`), then pack `(addr & ADDR_MASK) | flags.bits()`.  An entry
is its raw `u64` value; a flag set is its raw (masked) bits. -/
def PageEntry.new (addr : Physical) (flags : Nat) : Option Nat :=
  if addr.is_page_aligned then some ((addr.val &&& ADDR_MASK) ||| flags)
  else none

/-- `PageEntry::flags`: `PageEntryFlags::from_bits_truncate(self.0)`. -/
def PageEntry.flags (e : Nat) : Nat := e &&& FLAGS_MASK

/-- `PageEntry::is_present`: `self.flags().contains(PRESENT)`. -/
def PageEntry.is_present (e : Nat) : Bool :=
  flagsContains (PageEntry.flags e) PRESENT

/-- `PageEntry::address`: `Some(Physical::new(self.0 & ADDR_MASK))` when the
present flag is set, `None` otherwise.  (`Physical::new` never panics here
because the masked value always fits in 52 bits.) -/
def PageEntry.address (e : Nat) : Option Physical :=
  if PageEntry.is_present e then Physical.new (e &&& ADDR_MASK) else none

/-- `PageTable::new()`: 512 entries, all `PageEntry::EMPTY = PageEntry(0)`.
A table is its list of raw entries. -/
def PageTable.new : List Nat := List.replicate 512 0

/-- `PageTable::clear()`: `entry.clear()` (`self.0 = 0`) on every entry. -/
def PageTable.clear (t : List Nat) : List Nat := t.map (fun _ => 0)

/-- `PageTable::is_empty()`: `self.0.iter().all(PageEntry::is_present)` —
exactly as written in the source. -/
def PageTable.is_empty (t : List Nat) : Bool :=
  t.all (fun e => PageEntry.is_present e)

end Paging

namespace Idt

/-- src/cpu.rs: `pub enum Privilege { Ring0 = 0, Ring1 = 1, Ring2 = 2,
Ring3 = 3 }`. -/
inductive Privilege where
  | Ring0
  | Ring1
  | Ring2
  | Ring3
deriving DecidableEq

/-- The discriminant of a `Privilege` value (`dpl as u16`). -/
def Privilege.toNat : Privilege → Nat
  | .Ring0 => 0
  | .Ring1 => 1
  | .Ring2 => 2
  | .Ring3 => 3

/-- src/idt.rs: `DescriptorFlags::new() = Self(0x0F00)`; a flags value is
its raw `u16`. -/
def DescriptorFlags.new : Nat := 0x0F00

/-- `DescriptorFlags::present(present)`: `self.0.set_bit(15, present)`. -/
def DescriptorFlags.present (f : Nat) (p : Bool) : Nat := setBit f 15 p

/-- `DescriptorFlags::set_privilege_level(dpl)`:
`self.0.set_bit_range(15, 13, dpl as u16)` — note the source writes the
three-bit range 13-15, not just the two DPL bits 13-14. -/
def DescriptorFlags.set_privilege_level (f : Nat) (dpl : Privilege) : Nat :=
  setBitRange f 15 13 dpl.toNat

/-- `DescriptorFlags::with_interrupts(enabled)`:
`self.0.set_bit(8, !enabled)`. -/
def DescriptorFlags.with_interrupts (f : Nat) (enabled : Bool) : Nat :=
  setBit f 8 (!enabled)

end Idt

example : Virtual.try_new 0x00007FFFFFFFFFFF = some ⟨0x00007FFFFFFFFFFF⟩ := by decide
example : Virtual.try_new 0x0000800000000000 = some ⟨0xFFFF800000000000⟩ := by decide
example : Virtual.try_new 0xFFFF000000000000 = none := by decide
example : Virtual.try_new 0xFFFF800000000000 = some ⟨0xFFFF800000000000⟩ := by decide
example : Physical.try_new 0x000FFFFFFFFFFFFF = some ⟨0x000FFFFFFFFFFFFF⟩ := by decide
example : Physical.try_new 0x0010000000000000 = none := by decide
example : Virtual.align_up ⟨0x1001⟩ 0x1000 = some ⟨0x2000⟩ := by decide
example : Virtual.align_down ⟨0x1001⟩ 0x1000 = some ⟨0x1000⟩ := by decide
example : Virtual.align_up ⟨1⟩ (2 ^ 48) = some ⟨0⟩ := by decide
example : Virtual.page_align_down ⟨0x1234⟩ = ⟨0x234⟩ := by decide
example :
    (((Gdt.Table.set_descriptor (Gdt.Table.new 8) 1 Gdt.Descriptor.KERNEL_CODE64).bind
      (fun t1 => (Gdt.Table.set_descriptor t1 5 (Gdt.Descriptor.tss 0x1000)).bind
        (fun t2 => Gdt.Table.set_descriptor t2 6 Gdt.Descriptor.KERNEL_CODE64)))).isSome = true := by decide
example :
    (Gdt.Table.set_descriptor (Gdt.Table.new 8) 5 (Gdt.Descriptor.tss 0x123400001000)).bind
      (fun t2 => Gdt.Table.set_descriptor t2 6 Gdt.Descriptor.KERNEL_CODE64) = none := by decide
example : Idt.DescriptorFlags.set_privilege_level 0x8F00 Idt.Privilege.Ring0 = 0x0F00 := by decide
example : Idt.DescriptorFlags.present Idt.DescriptorFlags.new true = 0x8F00 := by decide
example : Paging.PageTable.is_empty Paging.PageTable.new = false := by decide
example : (Paging.PageEntry.new ⟨0x5000⟩ 0x3).bind Paging.PageEntry.address = some ⟨0x5000⟩ := by decide
example : (Paging.PageEntry.new ⟨0x5000⟩ 0x2).bind Paging.PageEntry.address = none := by decide

/-! Helper lemmas: bitmask expressions as division/modulus arithmetic. -/

theorem pow2_is_power_of_two (k : Nat) : (2 ^ k).is_power_of_two = true := by
  unfold Nat.is_power_of_two
  simp [Nat.and_pow_two_sub_one_eq_mod, (Nat.two_pow_pos k).ne']

theorem mask_and_compl (v k : Nat) (hv : v < 2 ^ 64) (hk : k ≤ 64) :
    v &&& compl64 (2 ^ k - 1) = 2 ^ k * (v / 2 ^ k) := by
  apply Nat.eq_of_testBit_eq
  intro i
  have h64 : (0xFFFFFFFFFFFFFFFF : Nat) = 2 ^ 64 - 1 := by norm_num
  unfold compl64
  rw [h64, Nat.testBit_and, Nat.testBit_xor, Nat.testBit_two_pow_sub_one,
    Nat.testBit_two_pow_sub_one, Nat.testBit_mul_pow_two]
  by_cases hik : k ≤ i
  · by_cases hi64 : i < 64
    · have : k + (i - k) = i := by omega
      simp [hik, hi64, Nat.not_lt.mpr hik, Nat.div_div_eq_div_mul,
        ← Nat.pow_add, this, Nat.testBit_to_div_mod]
    · have hbit : v.testBit i = false :=
        Nat.testBit_lt_two_pow (Nat.lt_of_lt_of_le hv
          (Nat.pow_le_pow_right (by omega) (by omega)))
      have hbit2 : (v / 2 ^ k).testBit (i - k) = false := by
        rw [Nat.testBit_to_div_mod, Nat.div_div_eq_div_mul, ← Nat.pow_add]
        have : k + (i - k) = i := by omega
        rw [this]
        rw [Nat.testBit_to_div_mod] at hbit
        simpa using hbit
      simp [hbit, hbit2]
  · have hik2 : i < k := by omega
    have hik3 : i < 64 := by omega
    simp [hik, hik2, hik3]

theorem canon_shift (v : Nat) (hv : v < 2 ^ 64) :
    (v &&& 0xFFFF800000000000) >>> 47 = v / 2 ^ 47 := by
  have hm : (0xFFFF800000000000 : Nat) = compl64 (2 ^ 47 - 1) := by decide
  rw [hm, mask_and_compl v 47 hv (by omega), Nat.shiftRight_eq_div_pow,
    Nat.mul_div_cancel_left _ (Nat.two_pow_pos 47)]

theorem Virtual.new_truncate_val (a : Nat) :
    (Virtual.new_truncate a).val =
      if a / 2 ^ 47 % 2 = 1 then a % 2 ^ 48 + 0xFFFF000000000000
      else a % 2 ^ 48 := by
  unfold Virtual.new_truncate
  rw [Nat.testBit_to_div_mod]
  split <;> simp_all

theorem Virtual.is_canonical_iff (v : Nat) (hv : v < 2 ^ 64) :
    Virtual.is_canonical v = true ↔ (v / 2 ^ 47 = 0 ∨ v / 2 ^ 47 = 0x1FFFF) := by
  unfold Virtual.is_canonical
  rw [canon_shift v hv]
  simp

theorem Virtual.try_new_char (v : Nat) (hv : v < 2 ^ 64) :
    Virtual.try_new v =
      if v / 2 ^ 47 = 0 ∨ v / 2 ^ 47 = 0x1FFFF then some ⟨v⟩
      else if v / 2 ^ 47 = 1 then some (Virtual.new_truncate v)
      else none := by
  unfold Virtual.try_new
  rw [canon_shift v hv]

theorem Physical.new_truncate_val52 (a : Nat) :
    (Physical.new_truncate a).val = a % 2 ^ 52 := by
  unfold Physical.new_truncate
  have h : (0x000FFFFFFFFFFFFF : Nat) = 2 ^ 52 - 1 := by norm_num
  rw [h, Nat.and_pow_two_sub_one_eq_mod]

theorem Virtual.new_truncate_canonical (a : Nat) :
    Virtual.is_canonical (Virtual.new_truncate a).val = true := by
  have hb : (Virtual.new_truncate a).val < 2 ^ 64 := by
    rw [Virtual.new_truncate_val]
    split <;> omega
  rw [Virtual.is_canonical_iff _ hb, Virtual.new_truncate_val]
  split <;> omega

theorem Virtual.new_canonical {x : Nat} {w : Virtual} (hx : x < 2 ^ 64)
    (h : Virtual.new x = some w) : Virtual.is_canonical w.val = true := by
  unfold Virtual.new at h
  rw [Virtual.try_new_char x hx] at h
  split_ifs at h with h1 h2
  · cases h
    rw [Virtual.is_canonical_iff _ hx]
    exact h1
  · cases h
    exact Virtual.new_truncate_canonical x

theorem Physical.new_valid {x : Nat} {w : Physical}
    (h : Physical.new x = some w) : w.val < 2 ^ 52 := by
  unfold Physical.new Physical.try_new at h
  split_ifs at h with h1
  cases h
  show x < 2 ^ 52
  omega

/-- C2, counterexample: the compound-assignment operator `+=` on `Virtual`
does not re-validate canonicality — adding 1 to the canonical address
`0x0000_7FFF_FFFF_FFFF` (built by `Virtual::new`) yields the raw value
`0x0000_8000_0000_0000`, which is not canonical, so the claimed invariant
preservation fails for the in-place arithmetic operations. -/
theorem claim2_counterexample :
    (Virtual.new 0x00007FFFFFFFFFFF).bind (fun v => Virtual.add_assign_u64 v 1) =
      some ⟨0x0000800000000000⟩ ∧
    Virtual.is_canonical 0x0000800000000000 = false := by decide

/-- C2 (amended): the by-value arithmetic operations on `Virtual` and
`Physical` (add and subtract by an address or by a raw u64/usize offset)
route their result through `new` and therefore re-validate canonicality
(resp. the 52-bit range) and abort on overflow; whenever they return an
address at all, it satisfies the type's invariant.  (The in-place `+=`/`-=`
forms mutate the raw field without re-validation, as the counterexample
shows.) -/
theorem claim2_by_value_ops_revalidate (a b : Virtual) (r : Nat) (p q : Physical)
    (ha : a.val < 2 ^ 64) (hb : b.val < 2 ^ 64) :
    (∀ w, Virtual.add a b = some w → Virtual.is_canonical w.val = true) ∧
    (∀ w, Virtual.add_u64 a r = some w → Virtual.is_canonical w.val = true) ∧
    (∀ w, Virtual.add_usize a r = some w → Virtual.is_canonical w.val = true) ∧
    (∀ w, Virtual.sub a b = some w → Virtual.is_canonical w.val = true) ∧
    (∀ w, Virtual.sub_u64 a r = some w → Virtual.is_canonical w.val = true) ∧
    (∀ w, Virtual.sub_usize a r = some w → Virtual.is_canonical w.val = true) ∧
    (∀ w, Physical.add p q = some w → w.val < 2 ^ 52) ∧
    (∀ w, Physical.add_u64 p r = some w → w.val < 2 ^ 52) ∧
    (∀ w, Physical.sub p q = some w → w.val < 2 ^ 52) ∧
    (∀ w, Physical.sub_u64 p r = some w → w.val < 2 ^ 52) := by
  refine ⟨?_, ?_, ?_, ?_, ?_, ?_, ?_, ?_, ?_, ?_⟩ <;> intro w hw
  · unfold Virtual.add at hw
    split_ifs at hw with h
    exact Virtual.new_canonical h hw
  · unfold Virtual.add_u64 at hw
    split_ifs at hw with h
    exact Virtual.new_canonical h hw
  · unfold Virtual.add_usize Virtual.add_u64 at hw
    split_ifs at hw with h
    exact Virtual.new_canonical h hw
  · unfold Virtual.sub at hw
    split_ifs at hw with h
    exact Virtual.new_canonical (by omega) hw
  · unfold Virtual.sub_u64 at hw
    split_ifs at hw with h
    exact Virtual.new_canonical (by omega) hw
  · unfold Virtual.sub_usize Virtual.sub_u64 at hw
    split_ifs at hw with h
    exact Virtual.new_canonical (by omega) hw
  · unfold Physical.add at hw
    split_ifs at hw with h
    exact Physical.new_valid hw
  · unfold Physical.add_u64 at hw
    split_ifs at hw with h
    exact Physical.new_valid hw
  · unfold Physical.sub at hw
    split_ifs at hw with h
    exact Physical.new_valid hw
  · unfold Physical.sub_u64 at hw
    split_ifs at hw with h
    exact Physical.new_valid hw

/-- Witness for C2 (amended): instantiated at concrete canonical inputs. -/
theorem claim2_by_value_ops_revalidate_witness :
    Virtual.is_canonical (Virtual.mk 0x3000).val = true :=
  ((claim2_by_value_ops_revalidate ⟨0x1000⟩ ⟨0x2000⟩ 0x2000 ⟨0x1000⟩ ⟨0x1000⟩
    (by norm_num) (by norm_num)).2.1) ⟨0x3000⟩ (by decide)

/-- C3 (code bug): in a fresh 8-entry GDT, installing the flat kernel code
descriptor at index 1 and then the task-state System descriptor for a TSS
whose base address `0x1000` fits in 32 bits at index 5 leaves slot 6 holding
the raw value 0 — the NULL pattern — so a subsequent
`set_descriptor(6, KERNEL_CODE64)` passes the "already in use" assertion and
succeeds instead of aborting, silently corrupting the live TSS descriptor.
For a TSS base that does not fit in 32 bits the call aborts as the claim
demands. -/
theorem claim3_tss_occupancy_bug :
    (((Gdt.Table.set_descriptor (Gdt.Table.new 8) 1 Gdt.Descriptor.KERNEL_CODE64).bind
      (fun t1 => (Gdt.Table.set_descriptor t1 5 (Gdt.Descriptor.tss 0x1000)).bind
        (fun t2 => Gdt.Table.set_descriptor t2 6 Gdt.Descriptor.KERNEL_CODE64)))).isSome
      = true ∧
    ((Gdt.Table.set_descriptor (Gdt.Table.new 8) 5 (Gdt.Descriptor.tss 0x1000)).map
      (fun t => t.getD 6 1)) = some 0 ∧
    ((Gdt.Table.set_descriptor (Gdt.Table.new 8) 5 (Gdt.Descriptor.tss 0x123400001000)).bind
      (fun t2 => Gdt.Table.set_descriptor t2 6 Gdt.Descriptor.KERNEL_CODE64)) = none := by
  decide

/-- C6 (confirmed): `Table::set_descriptor` checks the index bound and the
emptiness of every target slot — both slots, for a two-slot System
descriptor — before performing any write, so whenever the call aborts the
descriptor array is exactly as it was before the call. -/
theorem claim6_abort_leaves_table_unchanged (t : List Nat) (index : Nat)
    (d : Gdt.Descriptor) (h : (Gdt.Table.set_descriptor_run t index d).2 = true) :
    (Gdt.Table.set_descriptor_run t index d).1 = t := by
  unfold Gdt.Table.set_descriptor_run at h ⊢
  cases d <;> split_ifs at h ⊢ <;> simp_all

/-- Witness for C6: a Segment write into an occupied slot aborts and leaves
the two-entry table unchanged. -/
theorem claim6_abort_leaves_table_unchanged_witness :
    (Gdt.Table.set_descriptor_run [7, 0] 0 (Gdt.Descriptor.Segment 5)).2 = true ∧
    (Gdt.Table.set_descriptor_run [7, 0] 0 (Gdt.Descriptor.Segment 5)).1 = [7, 0] :=
  ⟨by decide, claim6_abort_leaves_table_unchanged [7, 0] 0 (Gdt.Descriptor.Segment 5) (by decide)⟩

/-- C7 (confirmed): clearing a page table is idempotent, leaves every entry
equal to the empty all-zero entry, preserves the entry count, and afterwards
`is_present` is false for every entry. -/
theorem claim7_clear_idempotent (t : List Nat) :
    Paging.PageTable.clear (Paging.PageTable.clear t) = Paging.PageTable.clear t ∧
    (Paging.PageTable.clear t).length = t.length ∧
    ∀ e ∈ Paging.PageTable.clear t, e = 0 ∧ Paging.PageEntry.is_present e = false := by
  refine ⟨by simp [Paging.PageTable.clear], by simp [Paging.PageTable.clear], ?_⟩
  intro e he
  simp only [Paging.PageTable.clear, List.mem_map] at he
  obtain ⟨x, hx, hxe⟩ := he
  exact hxe ▸ ⟨rfl, by decide⟩

/-- C8 (code bug): `page_align_down` masks with `0xFFF` instead of `!0xFFF`,
so on input `0x1234` it returns the page offset `0x234` for both `Virtual`
and `Physical`, while `align_down(·, 4096)` returns `0x1000`; the two
functions are therefore not equal and `page_align_down`'s result is neither
page-aligned nor ≤-related as the claim requires. -/
theorem claim8_page_align_down_bug :
    Virtual.page_align_down ⟨0x1234⟩ = ⟨0x234⟩ ∧
    Virtual.align_down ⟨0x1234⟩ 4096 = some ⟨0x1000⟩ ∧
    Physical.page_align_down ⟨0x1234⟩ = ⟨0x234⟩ ∧
    Physical.align_down ⟨0x1234⟩ 4096 = some ⟨0x1000⟩ ∧
    Virtual.is_page_aligned ⟨0x234⟩ = false := by decide

/-- C9 (code bug): `PageTable::is_empty` is `all(PageEntry::is_present)` —
true iff every entry IS present — so it returns `false` on a freshly
constructed table and on a just-cleared table, although every entry of
those tables is non-present (the claim, matching the function's own doc
comment, says it must return `true` there). -/
theorem claim9_is_empty_bug :
    Paging.PageTable.is_empty Paging.PageTable.new = false ∧
    Paging.PageTable.is_empty (Paging.PageTable.clear Paging.PageTable.new) = false ∧
    (∀ e ∈ Paging.PageTable.new, Paging.PageEntry.is_present e = false) := by
  refine ⟨by decide, by decide, ?_⟩
  intro e he
  rw [List.eq_of_mem_replicate he]
  decide

/-- C10 (code bug): `DescriptorFlags::set_privilege_level` writes the
three-bit range 13-15 (`set_bit_range(15, 13, dpl)`), not just the two DPL
bits 13-14: applied to the flags value `0x8F00` (the default with the
present bit set via `present(true)`) with `Ring0`, it returns `0x0F00`,
clearing bit 15 — the present bit does not retain its value. -/
theorem claim10_set_privilege_level_clears_present :
    Idt.DescriptorFlags.present Idt.DescriptorFlags.new true = 0x8F00 ∧
    Idt.DescriptorFlags.set_privilege_level 0x8F00 Idt.Privilege.Ring0 = 0x0F00 ∧
    Nat.testBit 0x8F00 15 = true ∧
    Nat.testBit 0x0F00 15 = false := by decide

/-- C1, counterexample: bits 48-63 of `0x0000_8000_0000_0000` are uniform
(all 0), and the claim demands that `Virtual::new` on it fail — but
`try_new` takes the sign-extension branch and succeeds; conversely
`0xFFFF_0000_0000_0000` has bits 48-63 uniform (all 1) so the claimed iff
demands success, yet `try_new` rejects it because bit 47 is 0. -/
theorem claim1_counterexample :
    (Virtual.new 0x0000800000000000).isSome = true ∧
    Virtual.try_new 0xFFFF000000000000 = none := by decide

/-- C1 (amended): for every 64-bit raw value `v`, `Virtual::try_new(v)`
succeeds iff bits 48-63 of `v` are all 0 (`v / 2^48 = 0`; when bit 47 is
set the result is sign-extended) or bits 47-63 of `v` are all 1
(`v / 2^47 = 0x1FFFF`); `Physical::try_new(v)` succeeds iff bits 52-63 are
all 0.  Boundary: `Virtual::new(0x0000_7FFF_FFFF_FFFF)` succeeds;
`Virtual::new(0x0000_8000_0000_0000)` succeeds with the sign-extended value
`0xFFFF_8000_0000_0000`; `Physical::new(0x000F_FFFF_FFFF_FFFF)` succeeds;
`Physical::new(0x0010_0000_0000_0000)` fails. -/
theorem claim1_try_new_characterization (v : Nat) (hv : v < 2 ^ 64) :
    ((Virtual.try_new v).isSome = true ↔ (v / 2 ^ 48 = 0 ∨ v / 2 ^ 47 = 0x1FFFF)) ∧
    ((Physical.try_new v).isSome = true ↔ v / 2 ^ 52 = 0) ∧
    (Virtual.new 0x00007FFFFFFFFFFF).isSome = true ∧
    Virtual.new 0x0000800000000000 = some ⟨0xFFFF800000000000⟩ ∧
    (Physical.new 0x000FFFFFFFFFFFFF).isSome = true ∧
    Physical.new 0x0010000000000000 = none := by
  refine ⟨?_, ?_, by decide, by decide, by decide, by decide⟩
  · rw [Virtual.try_new_char v hv]
    have hdd : v / 2 ^ 48 = v / 2 ^ 47 / 2 := by
      rw [Nat.div_div_eq_div_mul, ← Nat.pow_succ]
    rw [hdd]
    split_ifs with h1 h2 <;> simp <;> omega
  · unfold Physical.try_new
    split_ifs with h <;> simp <;> omega

/-- Witness for C1 (amended), instantiated at `v = 3`. -/
theorem claim1_witness :
    ((Virtual.try_new 3).isSome = true ↔ (3 / 2 ^ 48 = 0 ∨ 3 / 2 ^ 47 = 0x1FFFF)) ∧
    ((Physical.try_new 3).isSome = true ↔ 3 / 2 ^ 52 = 0) ∧
    (Virtual.new 0x00007FFFFFFFFFFF).isSome = true ∧
    Virtual.new 0x0000800000000000 = some ⟨0xFFFF800000000000⟩ ∧
    (Physical.new 0x000FFFFFFFFFFFFF).isSome = true ∧
    Physical.new 0x0010000000000000 = none :=
  claim1_try_new_characterization 3 (by norm_num)

theorem addr_and_mask {p : Nat} (hp : p < 2 ^ 52) (ha : p % 2 ^ 12 = 0) :
    p &&& Paging.ADDR_MASK = p := by
  have hm : Paging.ADDR_MASK = (2 ^ 40 - 1) <<< 12 := by decide
  apply Nat.eq_of_testBit_eq
  intro i
  rw [Nat.testBit_and, hm, Nat.testBit_shiftLeft, Nat.testBit_two_pow_sub_one]
  by_cases h1 : i < 12
  · have hz : (decide (i < 12) && p.testBit i) = false := by
      rw [← Nat.testBit_mod_two_pow, ha, Nat.zero_testBit]
    rw [decide_eq_true h1, Bool.true_and] at hz
    simp [hz]
  · by_cases h2 : i < 52
    · have h12 : 12 ≤ i := by omega
      have h40 : i - 12 < 40 := by omega
      simp [h12, h40]
    · have hz : p.testBit i = false :=
        Nat.testBit_lt_two_pow
          (lt_of_lt_of_le hp (Nat.pow_le_pow_right (by omega) (by omega)))
      have h40 : ¬ i - 12 < 40 := by omega
      simp [hz, h40]

/-- C5 (confirmed): for a valid, page-aligned physical address `p` and any
flag set `f` (a value over the declared `PageEntryFlags` bits),
`PageEntry::new(p, f).address()` is `Some(p)` when `f` contains PRESENT and
`None` when it does not. -/
theorem claim5_page_entry_roundtrip (p : Physical) (f : Nat)
    (hp : p.val < 2 ^ 52) (ha : p.val % 2 ^ 12 = 0)
    (hf : f &&& Paging.FLAGS_MASK = f) :
    ∀ e, Paging.PageEntry.new p f = some e →
      (Paging.flagsContains f Paging.PRESENT = true →
        Paging.PageEntry.address e = some p) ∧
      (Paging.flagsContains f Paging.PRESENT = false →
        Paging.PageEntry.address e = none) := by
  intro e he
  unfold Paging.PageEntry.new at he
  have hal : p.is_page_aligned = true := by
    unfold Physical.is_page_aligned
    simp only [beq_iff_eq]
    exact ha
  rw [hal] at he
  simp only [if_true] at he
  cases he
  have hpa : p.val &&& Paging.ADDR_MASK = p.val := addr_and_mask hp ha
  have hfa : f &&& Paging.ADDR_MASK = 0 := by
    conv_lhs => rw [← hf]
    rw [Nat.and_assoc, show Paging.FLAGS_MASK &&& Paging.ADDR_MASK = 0 from by decide,
      Nat.and_zero]
  have hea : ((p.val &&& Paging.ADDR_MASK) ||| f) &&& Paging.ADDR_MASK = p.val := by
    rw [Nat.and_distrib_right, Nat.and_assoc, Nat.and_self, hpa, hfa, Nat.or_zero]
  have hpres : Paging.PageEntry.is_present ((p.val &&& Paging.ADDR_MASK) ||| f) =
      Paging.flagsContains f Paging.PRESENT := by
    unfold Paging.PageEntry.is_present Paging.PageEntry.flags Paging.flagsContains
      Paging.PRESENT
    have h1 : (((p.val &&& Paging.ADDR_MASK) ||| f) &&& Paging.FLAGS_MASK) &&& 1 =
        f &&& 1 := by
      rw [Nat.and_assoc, show Paging.FLAGS_MASK &&& 1 = 1 from by decide,
        Nat.and_distrib_right, Nat.and_assoc,
        show Paging.ADDR_MASK &&& 1 = 0 from by decide, Nat.and_zero, Nat.zero_or]
    rw [h1]
  constructor
  · intro hc
    unfold Paging.PageEntry.address
    rw [hpres, hc, if_pos rfl, hea]
    unfold Physical.new Physical.try_new
    rw [if_neg (by omega)]
  · intro hc
    unfold Paging.PageEntry.address
    rw [hpres, hc]
    simp

/-- Witness for C5: a present entry at physical page `0x5000` with flags
PRESENT|WRITABLE round-trips the address. -/
theorem claim5_page_entry_roundtrip_witness :
    Paging.PageEntry.address 0x5003 = some ⟨0x5000⟩ :=
  (claim5_page_entry_roundtrip ⟨0x5000⟩ 3 (by norm_num) (by norm_num) (by decide)
    0x5003 (by decide)).1 (by decide)

theorem Virtual.val_ext {a b : Virtual} (h : a.val = b.val) : a = b := by
  cases a
  cases b
  cases h
  rfl

theorem Physical.phys_val_ext {a b : Physical} (h : a.val = b.val) : a = b := by
  cases a
  cases b
  cases h
  rfl

theorem Virtual.new_truncate_canonical_id {x : Nat} (hx : x < 2 ^ 64)
    (h : x / 2 ^ 47 = 0 ∨ x / 2 ^ 47 = 0x1FFFF) :
    (Virtual.new_truncate x).val = x := by
  rw [Virtual.new_truncate_val]
  split <;> omega

theorem valign_down_spec (v : Virtual) (k : Nat) (hv64 : v.val < 2 ^ 64)
    (hk : k ≤ 63) (hc : Virtual.is_canonical v.val = true) :
    ∃ w, Virtual.align_down v (2 ^ k) = some w ∧ w.val ≤ v.val ∧
      Virtual.is_canonical w.val = true ∧ w.val % 2 ^ k = 0 ∧
      (v.val % 2 ^ k = 0 → w = v) := by
  have heq : Virtual.align_down v (2 ^ k) =
      some (Virtual.new_truncate (2 ^ k * (v.val / 2 ^ k))) := by
    unfold Virtual.align_down
    rw [pow2_is_power_of_two, if_pos rfl, mask_and_compl v.val k hv64 (by omega)]
  set m := 2 ^ k * (v.val / 2 ^ k) with hm
  have hdm : 2 ^ k * (v.val / 2 ^ k) + v.val % 2 ^ k = v.val := Nat.div_add_mod _ _
  have hmlt : v.val % 2 ^ k < 2 ^ k := Nat.mod_lt _ (Nat.two_pow_pos k)
  have hmmod : m % 2 ^ k = 0 := by rw [hm]; exact Nat.mul_mod_right _ _
  have hle : m ≤ v.val := by omega
  have hm64 : m < 2 ^ 64 := by omega
  rcases (Virtual.is_canonical_iff v.val hv64).mp hc with h0 | h1
  · have hid : (Virtual.new_truncate m).val = m :=
      Virtual.new_truncate_canonical_id hm64 (Or.inl (by omega))
    exact ⟨_, heq, by rw [hid]; omega, Virtual.new_truncate_canonical m,
      by rw [hid]; exact hmmod, fun h0a => Virtual.val_ext (by rw [hid]; omega)⟩
  · by_cases hk47 : k ≤ 47
    · obtain ⟨c, hc2⟩ : (2 : Nat) ^ k ∣ 0xFFFF800000000000 := by
        have hL : (0xFFFF800000000000 : Nat) = 2 ^ 47 * 0x1FFFF := by norm_num
        rw [hL]
        exact dvd_mul_of_dvd_left (pow_dvd_pow 2 hk47) _
      have hvge : 0xFFFF800000000000 ≤ v.val := by omega
      have hmod : v.val % 2 ^ k = (v.val - 0xFFFF800000000000) % 2 ^ k := by
        conv_lhs =>
          rw [show v.val = 2 ^ k * c + (v.val - 0xFFFF800000000000) from by omega]
        rw [Nat.mul_add_mod]
      have hmge : 0xFFFF800000000000 ≤ m := by
        have h2 : v.val % 2 ^ k ≤ v.val - 0xFFFF800000000000 := by
          rw [hmod]
          exact Nat.mod_le _ _
        omega
      have hid : (Virtual.new_truncate m).val = m :=
        Virtual.new_truncate_canonical_id hm64 (Or.inr (by omega))
      exact ⟨_, heq, by rw [hid]; omega, Virtual.new_truncate_canonical m,
        by rw [hid]; exact hmmod, fun h0a => Virtual.val_ext (by rw [hid]; omega)⟩
    · obtain ⟨c, hc2⟩ : (2 : Nat) ^ 48 ∣ m := by
        rw [hm]
        exact dvd_mul_of_dvd_left (pow_dvd_pow 2 (by omega)) _
      have hid : (Virtual.new_truncate m).val = 0 := by
        rw [Virtual.new_truncate_val]
        split <;> omega
      refine ⟨_, heq, by rw [hid]; omega, Virtual.new_truncate_canonical m,
        by rw [hid]; exact Nat.zero_mod _, ?_⟩
      intro h0a
      exfalso
      obtain ⟨d, hd⟩ : (2 : Nat) ^ 48 ∣ v.val :=
        dvd_trans (pow_dvd_pow 2 (by omega)) (Nat.dvd_of_mod_eq_zero h0a)
      omega

theorem valign_up_spec (v : Virtual) (k : Nat) (hv64 : v.val < 2 ^ 64)
    (hk : k ≤ 47) (hc : Virtual.is_canonical v.val = true) :
    (Virtual.align_up v (2 ^ k) = none ↔ 2 ^ 64 ≤ v.val + (2 ^ k - 1)) ∧
    (∀ w, Virtual.align_up v (2 ^ k) = some w →
      v.val ≤ w.val ∧ Virtual.is_canonical w.val = true ∧ w.val % 2 ^ k = 0 ∧
      (v.val % 2 ^ k = 0 → w = v)) := by
  unfold Virtual.align_up
  rw [pow2_is_power_of_two, if_pos rfl]
  by_cases hov : v.val + (2 ^ k - 1) < 2 ^ 64
  · rw [if_pos hov, mask_and_compl _ k hov (by omega)]
    refine ⟨by simp; omega, ?_⟩
    intro w hw
    rw [Option.some.injEq] at hw
    subst hw
    set s := v.val + (2 ^ k - 1) with hs
    set m := 2 ^ k * (s / 2 ^ k) with hm
    have hdm : 2 ^ k * (s / 2 ^ k) + s % 2 ^ k = s := Nat.div_add_mod _ _
    have hmlt : s % 2 ^ k < 2 ^ k := Nat.mod_lt _ (Nat.two_pow_pos k)
    have hmmod : m % 2 ^ k = 0 := by rw [hm]; exact Nat.mul_mod_right _ _
    have hk2 : (2 : Nat) ^ k ≤ 2 ^ 47 := Nat.pow_le_pow_right (by omega) hk
    have hvm : v.val ≤ m := by omega
    have hm64 : m < 2 ^ 64 := by omega
    have hmeq : v.val % 2 ^ k = 0 → m = v.val := by
      intro h0
      obtain ⟨q, hq⟩ := Nat.dvd_of_mod_eq_zero h0
      have hsq : s / 2 ^ k = q := by
        rw [hs, hq, Nat.mul_add_div (Nat.two_pow_pos k),
          Nat.div_eq_of_lt (by omega), Nat.add_zero]
      rw [hm, hsq, ← hq]
    rcases (Virtual.is_canonical_iff v.val hv64).mp hc with h0 | h1
    · have hslt : m < 2 ^ 48 := by omega
      by_cases hbit : m / 2 ^ 47 % 2 = 1
      · have hid : (Virtual.new_truncate m).val = m % 2 ^ 48 + 0xFFFF000000000000 := by
          rw [Virtual.new_truncate_val, if_pos hbit]
        have hmm : m % 2 ^ 48 = m := Nat.mod_eq_of_lt hslt
        refine ⟨by rw [hid, hmm]; omega, Virtual.new_truncate_canonical m, ?_, ?_⟩
        · rw [hid, hmm]
          obtain ⟨c, hc2⟩ : (2 : Nat) ^ k ∣ 0xFFFF000000000000 := by
            have h48 : (0xFFFF000000000000 : Nat) = 2 ^ 48 * 0xFFFF := by norm_num
            rw [h48]
            exact dvd_mul_of_dvd_left (pow_dvd_pow 2 (by omega)) _
          obtain ⟨a, ha2⟩ := Nat.dvd_of_mod_eq_zero hmmod
          rw [ha2, hc2, ← Nat.mul_add]
          exact Nat.mul_mod_right _ _
        · intro h0a
          exfalso
          have := hmeq h0a
          omega
      · have hid : (Virtual.new_truncate m).val = m % 2 ^ 48 := by
          rw [Virtual.new_truncate_val, if_neg hbit]
        have hmm : m % 2 ^ 48 = m := Nat.mod_eq_of_lt hslt
        refine ⟨by rw [hid, hmm]; omega, Virtual.new_truncate_canonical m,
          by rw [hid, hmm]; exact hmmod, ?_⟩
        intro h0a
        exact Virtual.val_ext (by rw [hid, hmm]; exact hmeq h0a)
    · have hvge : 0xFFFF800000000000 ≤ v.val := by omega
      have hid : (Virtual.new_truncate m).val = m :=
        Virtual.new_truncate_canonical_id hm64 (Or.inr (by omega))
      exact ⟨by rw [hid]; exact hvm, Virtual.new_truncate_canonical m,
        by rw [hid]; exact hmmod, fun h0a => Virtual.val_ext (by rw [hid]; exact hmeq h0a)⟩
  · rw [if_neg hov]
    refine ⟨by simp; omega, fun w hw => by cases hw⟩

theorem palign_down_spec (p : Physical) (k : Nat) (hp : p.val < 2 ^ 52)
    (hk : k ≤ 63) :
    ∃ w, Physical.align_down p (2 ^ k) = some w ∧ w.val ≤ p.val ∧ w.val < 2 ^ 52 ∧
      w.val % 2 ^ k = 0 ∧ (p.val % 2 ^ k = 0 → w = p) := by
  have hp64 : p.val < 2 ^ 64 := by omega
  have heq : Physical.align_down p (2 ^ k) =
      some (Physical.new_truncate (2 ^ k * (p.val / 2 ^ k))) := by
    unfold Physical.align_down
    rw [pow2_is_power_of_two, if_pos rfl, mask_and_compl p.val k hp64 (by omega)]
  set m := 2 ^ k * (p.val / 2 ^ k) with hm
  have hdm : 2 ^ k * (p.val / 2 ^ k) + p.val % 2 ^ k = p.val := Nat.div_add_mod _ _
  have hmmod : m % 2 ^ k = 0 := by rw [hm]; exact Nat.mul_mod_right _ _
  have hval : (Physical.new_truncate m).val = m := by
    rw [Physical.new_truncate_val52]
    exact Nat.mod_eq_of_lt (by omega)
  exact ⟨_, heq, by rw [hval]; omega, by rw [hval]; omega, by rw [hval]; exact hmmod,
    fun h0 => Physical.phys_val_ext (by rw [hval]; omega)⟩

theorem palign_up_spec (p : Physical) (k : Nat) (hp : p.val < 2 ^ 52)
    (hk : k ≤ 63) :
    ∃ w, Physical.align_up p (2 ^ k) = some w ∧ w.val < 2 ^ 52 ∧ w.val % 2 ^ k = 0 ∧
      (2 ^ k * ((p.val + (2 ^ k - 1)) / 2 ^ k) < 2 ^ 52 →
        p.val ≤ w.val ∧ (p.val % 2 ^ k = 0 → w = p)) := by
  have hk2 : (2 : Nat) ^ k ≤ 2 ^ 63 := Nat.pow_le_pow_right (by omega) hk
  have hov : p.val + (2 ^ k - 1) < 2 ^ 64 := by omega
  have heq : Physical.align_up p (2 ^ k) =
      some (Physical.new_truncate (2 ^ k * ((p.val + (2 ^ k - 1)) / 2 ^ k))) := by
    unfold Physical.align_up
    rw [pow2_is_power_of_two, if_pos rfl, if_pos hov, mask_and_compl _ k hov (by omega)]
  set s := p.val + (2 ^ k - 1) with hs
  set m := 2 ^ k * (s / 2 ^ k) with hm
  have hdm : 2 ^ k * (s / 2 ^ k) + s % 2 ^ k = s := Nat.div_add_mod _ _
  have hmlt : s % 2 ^ k < 2 ^ k := Nat.mod_lt _ (Nat.two_pow_pos k)
  have hmmod : m % 2 ^ k = 0 := by rw [hm]; exact Nat.mul_mod_right _ _
  have hvm : p.val ≤ m := by omega
  have hval : (Physical.new_truncate m).val = m % 2 ^ 52 := Physical.new_truncate_val52 m
  have haligned : (m % 2 ^ 52) % 2 ^ k = 0 := by
    by_cases hk52 : k ≤ 52
    · obtain ⟨a, ha2⟩ := Nat.dvd_of_mod_eq_zero hmmod
      obtain ⟨b, hb2⟩ : (2 : Nat) ^ k ∣ 2 ^ 52 := pow_dvd_pow 2 hk52
      rw [ha2, hb2, Nat.mul_mod_mul_left]
      exact Nat.mul_mod_right _ _
    · obtain ⟨c, hc2⟩ : (2 : Nat) ^ 52 ∣ m :=
        dvd_trans (pow_dvd_pow 2 (by omega)) (Nat.dvd_of_mod_eq_zero hmmod)
      rw [hc2, Nat.mul_mod_right, Nat.zero_mod]
  refine ⟨_, heq, by rw [hval]; exact Nat.mod_lt _ (Nat.two_pow_pos 52),
    by rw [hval]; exact haligned, ?_⟩
  intro hfits
  have hmm : m % 2 ^ 52 = m := Nat.mod_eq_of_lt hfits
  refine ⟨by rw [hval, hmm]; exact hvm, ?_⟩
  intro h0
  obtain ⟨q, hq⟩ := Nat.dvd_of_mod_eq_zero h0
  have hsq : s / 2 ^ k = q := by
    rw [hs, hq, Nat.mul_add_div (Nat.two_pow_pos k),
      Nat.div_eq_of_lt (by omega), Nat.add_zero]
  exact Physical.phys_val_ext (by rw [hval, hmm, hm, hsq, ← hq])

/-- C4, counterexample: `a = 1` is canonical, `n = 2^48` is a power of two,
the intermediate addition `a + (n - 1)` does not overflow 64 bits — yet
`Virtual::align_up(1, 2^48)` returns `0`, because the rounded-up value
`2^48` is non-canonical and `new_truncate` sign-truncates it to `0`.  This
violates the claimed `a <= align_up(a, n)`. -/
theorem claim4_counterexample :
    Virtual.is_canonical 1 = true ∧
    1 + (2 ^ 48 - 1) < 2 ^ 64 ∧
    Virtual.align_up ⟨1⟩ (2 ^ 48) = some ⟨0⟩ := by decide

/-- C4 (amended): for every canonical virtual address `a`, valid physical
address `a`, and power-of-two alignment `n = 2^k` (`k ≤ 63`):
`align_down(a, n)` always succeeds with a result that is ≤ `a`, canonical
(resp. within 52 bits), aligned to `n`, and equal to `a` when `a` is already
aligned.  `align_up` satisfies `a ≤ align_up(a, n)`, canonicality/range,
alignment, and fixes aligned inputs, provided `n ≤ 2^47` for `Virtual`
(aborting exactly when the intermediate addition `a + (n-1)` overflows
64 bits), and, for `Physical` (which never aborts for valid inputs), the
result is always in range and aligned, with `a ≤ align_up(a, n)` and the
aligned-fixpoint property provided the value of `a` rounded up to a multiple
of `n` still fits in 52 bits; beyond those provisos `new_truncate` may wrap
the rounded value below `a`, as the counterexample shows. -/
theorem claim4_alignment (k : Nat) (v : Virtual) (p : Physical)
    (hk : k ≤ 63) (hv64 : v.val < 2 ^ 64) (hc : Virtual.is_canonical v.val = true)
    (hp : p.val < 2 ^ 52) :
    (∃ w, Virtual.align_down v (2 ^ k) = some w ∧ w.val ≤ v.val ∧
      Virtual.is_canonical w.val = true ∧ w.val % 2 ^ k = 0 ∧
      (v.val % 2 ^ k = 0 → w = v)) ∧
    (k ≤ 47 →
      (Virtual.align_up v (2 ^ k) = none ↔ 2 ^ 64 ≤ v.val + (2 ^ k - 1)) ∧
      (∀ w, Virtual.align_up v (2 ^ k) = some w →
        v.val ≤ w.val ∧ Virtual.is_canonical w.val = true ∧ w.val % 2 ^ k = 0 ∧
        (v.val % 2 ^ k = 0 → w = v))) ∧
    (∃ w, Physical.align_down p (2 ^ k) = some w ∧ w.val ≤ p.val ∧ w.val < 2 ^ 52 ∧
      w.val % 2 ^ k = 0 ∧ (p.val % 2 ^ k = 0 → w = p)) ∧
    (∃ w, Physical.align_up p (2 ^ k) = some w ∧ w.val < 2 ^ 52 ∧ w.val % 2 ^ k = 0 ∧
      (2 ^ k * ((p.val + (2 ^ k - 1)) / 2 ^ k) < 2 ^ 52 →
        p.val ≤ w.val ∧ (p.val % 2 ^ k = 0 → w = p))) :=
  ⟨valign_down_spec v k hv64 hk hc,
   fun h47 => valign_up_spec v k hv64 h47 hc,
   palign_down_spec p k hp hk,
   palign_up_spec p k hp hk⟩

/-- Witness for C4 (amended), instantiated at page alignment `2^12` and the
addresses `0x2345`. -/
theorem claim4_alignment_witness :
    (∃ w, Virtual.align_down ⟨0x2345⟩ (2 ^ 12) = some w ∧ w.val ≤ (0x2345 : Nat) ∧
      Virtual.is_canonical w.val = true ∧ w.val % 2 ^ 12 = 0 ∧
      ((0x2345 : Nat) % 2 ^ 12 = 0 → w = ⟨0x2345⟩)) ∧
    (12 ≤ 47 →
      (Virtual.align_up ⟨0x2345⟩ (2 ^ 12) = none ↔
        2 ^ 64 ≤ (0x2345 : Nat) + (2 ^ 12 - 1)) ∧
      (∀ w, Virtual.align_up ⟨0x2345⟩ (2 ^ 12) = some w →
        (0x2345 : Nat) ≤ w.val ∧ Virtual.is_canonical w.val = true ∧
        w.val % 2 ^ 12 = 0 ∧ ((0x2345 : Nat) % 2 ^ 12 = 0 → w = ⟨0x2345⟩))) ∧
    (∃ w, Physical.align_down ⟨0x2345⟩ (2 ^ 12) = some w ∧ w.val ≤ (0x2345 : Nat) ∧
      w.val < 2 ^ 52 ∧ w.val % 2 ^ 12 = 0 ∧
      ((0x2345 : Nat) % 2 ^ 12 = 0 → w = ⟨0x2345⟩)) ∧
    (∃ w, Physical.align_up ⟨0x2345⟩ (2 ^ 12) = some w ∧ w.val < 2 ^ 52 ∧
      w.val % 2 ^ 12 = 0 ∧
      (2 ^ 12 * (((0x2345 : Nat) + (2 ^ 12 - 1)) / 2 ^ 12) < 2 ^ 52 →
        (0x2345 : Nat) ≤ w.val ∧ ((0x2345 : Nat) % 2 ^ 12 = 0 → w = ⟨0x2345⟩))) :=
  claim4_alignment 12 ⟨0x2345⟩ ⟨0x2345⟩ (by norm_num) (by norm_num) (by decide)
    (by norm_num)

/-- Witness for C7, instantiated at a concrete three-entry table. -/
theorem claim7_clear_idempotent_witness :
    Paging.PageTable.clear (Paging.PageTable.clear [5, 0, 7]) =
      Paging.PageTable.clear [5, 0, 7] ∧
    (Paging.PageTable.clear [5, 0, 7]).length = ([5, 0, 7] : List Nat).length ∧
    ∀ e ∈ Paging.PageTable.clear [5, 0, 7],
      e = 0 ∧ Paging.PageEntry.is_present e = false :=
  claim7_clear_idempotent [5, 0, 7]
